import Mathlib

/-!
Verification of the first-person player-movement and collision-resolution
core of the repository (file FPSCanvas, the Player component and its
helpers).  The numeric model is exact field arithmetic: the collision
layer is stated over an arbitrary linear ordered field (instantiated at
the rationals for concrete evaluations and at the reals inside the frame
integrator), and the per-frame integrator is stated over the reals, with
JavaScript's Math.exp and Math.sqrt modelled by Real.exp and Real.sqrt.
-/

/-- A 3-component vector, after THREE.Vector3 as the source uses it. -/
structure Vec3 (α : Type) where
  x : α
  y : α
  z : α
deriving DecidableEq, Repr

/-- A static axis-aligned box, after the source's Collider type:
position is the box center, size the full extents. -/
structure Collider (α : Type) where
  position : Vec3 α
  size : Vec3 α
deriving DecidableEq, Repr

/-- The six logical movement flags, after the source's MovementKeys type. -/
structure MovementKeys where
  forward : Bool
  backward : Bool
  left : Bool
  right : Bool
  jump : Bool
  sprint : Bool
deriving DecidableEq, Repr

/-- INITIAL_KEYS of the source: every flag released. -/
def noKeys : MovementKeys :=
  { forward := false, backward := false, left := false, right := false,
    jump := false, sprint := false }

/-- The key set held in the straight-run scenarios: forward held, sprint
as given, everything else released. -/
def runKeys (sprint : Bool) : MovementKeys :=
  { forward := true, backward := false, left := false, right := false,
    jump := false, sprint := sprint }

/-- capsuleRadius of the Player component (source value 0.35). -/
def capsuleRadius (α : Type) [LinearOrderedField α] : α := 35 / 100

/-- capsuleHeight of the Player component (source value 1.7). -/
def capsuleHeight (α : Type) [LinearOrderedField α] : α := 17 / 10

/-- The eye-height floor value the source's floor clamp compares against
(source value 1.6). -/
def floorHeight (α : Type) [LinearOrderedField α] : α := 8 / 5

/-- The collider's minimum corner, as resolveCollisions and intersectsBox
compute it: position - size * 0.5, componentwise. -/
def colliderMin {α : Type} [LinearOrderedField α] (c : Collider α) : Vec3 α :=
  ⟨c.position.x - c.size.x / 2, c.position.y - c.size.y / 2, c.position.z - c.size.z / 2⟩

/-- The collider's maximum corner: position + size * 0.5, componentwise. -/
def colliderMax {α : Type} [LinearOrderedField α] (c : Collider α) : Vec3 α :=
  ⟨c.position.x + c.size.x / 2, c.position.y + c.size.y / 2, c.position.z + c.size.z / 2⟩

/-- intersectsBox of the source: the raw point strictly inside the box on
all three axes.  No margin is added to the point here. -/
def intersectsBox {α : Type} [LinearOrderedField α] (point : Vec3 α) (c : Collider α) : Prop :=
  (colliderMin c).x < point.x ∧ point.x < (colliderMax c).x ∧
  (colliderMin c).y < point.y ∧ point.y < (colliderMax c).y ∧
  (colliderMin c).z < point.z ∧ point.z < (colliderMax c).z

instance {α : Type} [LinearOrderedField α] (point : Vec3 α) (c : Collider α) :
    Decidable (intersectsBox point c) := by
  unfold intersectsBox; exact inferInstance

/-- Overlap depth along X as resolveCollisions computes it:
min(max.x - (target.x - capsuleRadius), target.x + capsuleRadius - min.x). -/
def depthX {α : Type} [LinearOrderedField α] (c : Collider α) (t : Vec3 α) : α :=
  min ((colliderMax c).x - (t.x - capsuleRadius α)) (t.x + capsuleRadius α - (colliderMin c).x)

/-- Overlap depth along Z as resolveCollisions computes it. -/
def depthZ {α : Type} [LinearOrderedField α] (c : Collider α) (t : Vec3 α) : α :=
  min ((colliderMax c).z - (t.z - capsuleRadius α)) (t.z + capsuleRadius α - (colliderMin c).z)

/-- The body of the collider loop of resolveCollisions for one collider:
given the candidate target and the current velocity, returns the updated
pair.  Mirrors source lines 123-140: a collider acts only when the raw
point is strictly inside the box and the vertical slab test passes; the
push is along the axis of strictly smaller depth (Z when the depths are
equal), away from the collider center, and the pushed axis's velocity
component is zeroed. -/
def resolveOne {α : Type} [LinearOrderedField α] (c : Collider α)
    (tv : Vec3 α × Vec3 α) : Vec3 α × Vec3 α :=
  if intersectsBox tv.1 c then
    if tv.1.y - capsuleRadius α < (colliderMax c).y ∧
        tv.1.y + capsuleHeight α > (colliderMin c).y then
      if depthX c tv.1 < depthZ c tv.1 then
        (⟨tv.1.x + (if tv.1.x > c.position.x then depthX c tv.1 else -(depthX c tv.1)),
          tv.1.y, tv.1.z⟩,
         ⟨0, tv.2.y, tv.2.z⟩)
      else
        (⟨tv.1.x, tv.1.y,
          tv.1.z + (if tv.1.z > c.position.z then depthZ c tv.1 else -(depthZ c tv.1))⟩,
         ⟨tv.2.x, tv.2.y, 0⟩)
    else tv
  else tv

/-- The collider loop of resolveCollisions: every collider is visited in
list order, updating the single candidate/velocity pair. -/
def resolveBoxes {α : Type} [LinearOrderedField α] (cs : List (Collider α))
    (tv : Vec3 α × Vec3 α) : Vec3 α × Vec3 α :=
  cs.foldl (fun acc c => resolveOne c acc) tv

/-- The floor clamp at the end of resolveCollisions (source lines 142-148):
if the candidate y is below the floor value, clamp y, zero vertical
velocity and set grounded; otherwise clear grounded.  Returns
(target, velocity, grounded). -/
def floorClamp {α : Type} [LinearOrderedField α] (tv : Vec3 α × Vec3 α) :
    Vec3 α × Vec3 α × Bool :=
  if tv.1.y < floorHeight α then
    (⟨tv.1.x, floorHeight α, tv.1.z⟩, ⟨tv.2.x, 0, tv.2.z⟩, true)
  else
    (tv.1, tv.2, false)

/-- resolveCollisions of the source: the collider loop followed by the
floor clamp. -/
def resolveCollisions {α : Type} [LinearOrderedField α] (cs : List (Collider α))
    (t v : Vec3 α) : Vec3 α × Vec3 α × Bool :=
  floorClamp (resolveBoxes cs (t, v))

/-- An orientation quaternion (the camera's), after THREE.Quaternion. -/
structure Quat where
  x : ℝ
  y : ℝ
  z : ℝ
  w : ℝ

/-- The identity orientation: the default camera quaternion. -/
def qIdentity : Quat := ⟨0, 0, 0, 1⟩

/-- THREE.Vector3.applyQuaternion: rotate the vector by the quaternion
(v + 2 w (q x v) + 2 q x (q x v), written out componentwise as in the
three.js source). -/
def applyQuaternion (q : Quat) (v : Vec3 ℝ) : Vec3 ℝ :=
  let tx := 2 * (q.y * v.z - q.z * v.y)
  let ty := 2 * (q.z * v.x - q.x * v.z)
  let tz := 2 * (q.x * v.y - q.y * v.x)
  ⟨v.x + q.w * tx + q.y * tz - q.z * ty,
   v.y + q.w * ty + q.z * tx - q.x * tz,
   v.z + q.w * tz + q.x * ty - q.y * tx⟩

/-- THREE.Vector3.lengthSq. -/
def lengthSq (v : Vec3 ℝ) : ℝ := v.x * v.x + v.y * v.y + v.z * v.z

/-- THREE.Vector3.length. -/
noncomputable def vecLength (v : Vec3 ℝ) : ℝ := Real.sqrt (lengthSq v)

/-- THREE.Vector3.normalize: divideScalar(length() || 1) — a zero-length
vector is divided by 1 and stays zero. -/
noncomputable def normalizeV (v : Vec3 ℝ) : Vec3 ℝ :=
  let l := vecLength v
  let d := if l = 0 then 1 else l
  ⟨v.x / d, v.y / d, v.z / d⟩

/-- moveZ of the frame body: Number(backward) - Number(forward). -/
def moveZVal (k : MovementKeys) : ℝ :=
  (if k.backward then 1 else 0) - (if k.forward then 1 else 0)

/-- moveX of the frame body: Number(right) - Number(left). -/
def moveXVal (k : MovementKeys) : ℝ :=
  (if k.right then 1 else 0) - (if k.left then 1 else 0)

/-- tempFront of the frame body: (0,0,-1) rotated by the camera
quaternion, projected to the horizontal plane, then normalized. -/
noncomputable def frontVec (q : Quat) : Vec3 ℝ :=
  normalizeV ⟨(applyQuaternion q ⟨0, 0, -1⟩).x, 0, (applyQuaternion q ⟨0, 0, -1⟩).z⟩

/-- tempSide of the frame body: (1,0,0) rotated by the camera quaternion,
projected to the horizontal plane, then normalized. -/
noncomputable def sideVec (q : Quat) : Vec3 ℝ :=
  normalizeV ⟨(applyQuaternion q ⟨1, 0, 0⟩).x, 0, (applyQuaternion q ⟨1, 0, 0⟩).z⟩

/-- moveDirection of the frame body: front * moveZ + side * moveX. -/
noncomputable def moveDir (q : Quat) (k : MovementKeys) : Vec3 ℝ :=
  ⟨(frontVec q).x * moveZVal k + (sideVec q).x * moveXVal k,
   (frontVec q).y * moveZVal k + (sideVec q).y * moveXVal k,
   (frontVec q).z * moveZVal k + (sideVec q).z * moveXVal k⟩

/-- Horizontal damping (source lines 160, 166-167): x and z velocity
multiplied by exp(-4 * delta); y untouched. -/
noncomputable def dampedVel (δ : ℝ) (v : Vec3 ℝ) : Vec3 ℝ :=
  ⟨v.x * Real.exp (-(4 * δ)), v.y, v.z * Real.exp (-(4 * δ))⟩

/-- The acceleration step (source lines 171-181): when the move direction
is nonzero it is normalized and acceleration * delta is added along it. -/
noncomputable def accelVel (q : Quat) (k : MovementKeys) (δ : ℝ) (v : Vec3 ℝ) : Vec3 ℝ :=
  if lengthSq (moveDir q k) > 0 then
    let m := normalizeV (moveDir q k)
    ⟨v.x + m.x * (36 * δ), v.y + m.y * (36 * δ), v.z + m.z * (36 * δ)⟩
  else v

/-- targetSpeed of the frame body: 12 when sprinting, 6 otherwise. -/
def targetSpeed (k : MovementKeys) : ℝ := if k.sprint then 12 else 6

/-- The speed clamp (source lines 183-188): when the horizontal speed
exceeds the target, both horizontal components are scaled by
targetSpeed / currentSpeed. -/
noncomputable def clampVel (k : MovementKeys) (v : Vec3 ℝ) : Vec3 ℝ :=
  let cs := Real.sqrt (v.x ^ 2 + v.z ^ 2)
  if cs > targetSpeed k then
    ⟨v.x * (targetSpeed k / cs), v.y, v.z * (targetSpeed k / cs)⟩
  else v

/-- The steering block (source lines 170-189): acceleration and speed
clamp run only when some directional flag is held. -/
noncomputable def steerVel (q : Quat) (k : MovementKeys) (δ : ℝ) (v : Vec3 ℝ) : Vec3 ℝ :=
  if moveXVal k ≠ 0 ∨ moveZVal k ≠ 0 then clampVel k (accelVel q k δ v) else v

/-- Gravity (source line 191): gravity * delta subtracted from vertical
velocity unconditionally. -/
noncomputable def gravityVel (δ : ℝ) (v : Vec3 ℝ) : Vec3 ℝ := ⟨v.x, v.y - 50 * δ, v.z⟩

/-- Jump (source lines 193-196): when the jump flag is held and the body
was grounded, vertical velocity is set to the jump impulse 10. -/
noncomputable def jumpVel (k : MovementKeys) (grounded : Bool) (v : Vec3 ℝ) : Vec3 ℝ :=
  if k.jump && grounded then ⟨v.x, 10, v.z⟩ else v

/-- The player's simulation state: body position and velocity, the
grounded flag, and the camera position the integrator writes. -/
structure PlayerState where
  position : Vec3 ℝ
  velocity : Vec3 ℝ
  grounded : Bool
  cameraPos : Vec3 ℝ

/-- The velocity at the end of the frame's velocity pipeline: damping,
steering (acceleration + clamp), gravity, jump, in source order. -/
noncomputable def frameVel (q : Quat) (k : MovementKeys) (δ : ℝ) (s : PlayerState) : Vec3 ℝ :=
  jumpVel k s.grounded (gravityVel δ (steerVel q k δ (dampedVel δ s.velocity)))

/-- nextPosition of the frame body (source line 198): position plus the
updated velocity scaled by delta, before collision resolution. -/
noncomputable def frameCandidate (q : Quat) (k : MovementKeys) (δ : ℝ) (s : PlayerState) : Vec3 ℝ :=
  ⟨s.position.x + (frameVel q k δ s).x * δ,
   s.position.y + (frameVel q k δ s).y * δ,
   s.position.z + (frameVel q k δ s).z * δ⟩

/-- One integrator frame (the useFrame body, source lines 153-203).  When
the pointer-lock gate is disengaged the frame returns the state
unchanged; otherwise the velocity pipeline runs, the candidate position
is resolved against the colliders and the floor, and the result is
committed to the body and the camera. -/
noncomputable def frame (cs : List (Collider ℝ)) (q : Quat) (k : MovementKeys)
    (δ : ℝ) (locked : Bool) (s : PlayerState) : PlayerState :=
  if locked then
    let r := resolveCollisions cs (frameCandidate q k δ s) (frameVel q k δ s)
    ⟨r.1, r.2.1, r.2.2, r.1⟩
  else s

/-- The six static colliders of the scene (source lines 353-360). -/
noncomputable def sceneColliders : List (Collider ℝ) :=
  [⟨⟨0, 3/2, -10⟩, ⟨8, 3, 2⟩⟩,
   ⟨⟨-12, 5/2, -24⟩, ⟨6, 5, 8⟩⟩,
   ⟨⟨14, 7/2, -18⟩, ⟨10, 7, 10⟩⟩,
   ⟨⟨-6, 3/2, -3⟩, ⟨2, 3, 8⟩⟩,
   ⟨⟨9, 3/2, 4⟩, ⟨12, 3, 2⟩⟩,
   ⟨⟨2, 5, -38⟩, ⟨18, 10, 6⟩⟩]

/-- The initial player state: spawn position (0, 1.6, 6), zero velocity,
not grounded, camera at the spawn position (source lines 111-113, 367). -/
noncomputable def initialState : PlayerState :=
  ⟨⟨0, 8/5, 6⟩, ⟨0, 0, 0⟩, false, ⟨0, 8/5, 6⟩⟩

/-- Horizontal speed of a velocity vector, as the source computes it in
the clamp step: sqrt(vx^2 + vz^2). -/
noncomputable def horizSpeed (v : Vec3 ℝ) : ℝ := Real.sqrt (v.x ^ 2 + v.z ^ 2)

/-- The damping factor of a 1/60 s frame: exp(-4/60). -/
noncomputable def d60 : ℝ := Real.exp (-(4 * (1 / 60)))

/-- The horizontal speed recurrence of a straight run at a 1/60 s delta:
damping, acceleration 36 * (1/60) = 3/5 along the fixed direction, then
the cap. -/
noncomputable def speedStep (cap s : ℝ) : ℝ :=
  if s * d60 + 3/5 > cap then cap else s * d60 + 3/5

/-! ### Structural lemmas about the collider loop -/

theorem resolveBoxes_nil {α : Type} [LinearOrderedField α] (tv : Vec3 α × Vec3 α) :
    resolveBoxes [] tv = tv := rfl

theorem resolveBoxes_cons {α : Type} [LinearOrderedField α] (c : Collider α)
    (cs : List (Collider α)) (tv : Vec3 α × Vec3 α) :
    resolveBoxes (c :: cs) tv = resolveBoxes cs (resolveOne c tv) := rfl

/-- A collider the candidate point is not inside leaves the pair alone. -/
theorem resolveOne_miss {α : Type} [LinearOrderedField α] (c : Collider α)
    (tv : Vec3 α × Vec3 α) (h : ¬ intersectsBox tv.1 c) : resolveOne c tv = tv := by
  unfold resolveOne
  rw [if_neg h]

/-- One collider step never changes the vertical components. -/
theorem resolveOne_y {α : Type} [LinearOrderedField α] (c : Collider α)
    (tv : Vec3 α × Vec3 α) :
    (resolveOne c tv).1.y = tv.1.y ∧ (resolveOne c tv).2.y = tv.2.y := by
  unfold resolveOne
  split_ifs <;> simp

/-- One collider step keeps or zeroes each horizontal velocity component. -/
theorem resolveOne_vel {α : Type} [LinearOrderedField α] (c : Collider α)
    (tv : Vec3 α × Vec3 α) :
    ((resolveOne c tv).2.x = tv.2.x ∨ (resolveOne c tv).2.x = 0) ∧
    ((resolveOne c tv).2.z = tv.2.z ∨ (resolveOne c tv).2.z = 0) := by
  unfold resolveOne
  split_ifs <;> simp

/-- The collider loop never changes the vertical components. -/
theorem resolveBoxes_y {α : Type} [LinearOrderedField α] (cs : List (Collider α)) :
    ∀ tv : Vec3 α × Vec3 α,
      (resolveBoxes cs tv).1.y = tv.1.y ∧ (resolveBoxes cs tv).2.y = tv.2.y := by
  induction cs with
  | nil => intro tv; exact ⟨rfl, rfl⟩
  | cons c cs ih =>
    intro tv
    rw [resolveBoxes_cons]
    exact ⟨(ih _).1.trans (resolveOne_y c tv).1, (ih _).2.trans (resolveOne_y c tv).2⟩

/-- The collider loop keeps or zeroes each horizontal velocity component. -/
theorem resolveBoxes_vel {α : Type} [LinearOrderedField α] (cs : List (Collider α)) :
    ∀ tv : Vec3 α × Vec3 α,
      ((resolveBoxes cs tv).2.x = tv.2.x ∨ (resolveBoxes cs tv).2.x = 0) ∧
      ((resolveBoxes cs tv).2.z = tv.2.z ∨ (resolveBoxes cs tv).2.z = 0) := by
  induction cs with
  | nil => intro tv; exact ⟨Or.inl rfl, Or.inl rfl⟩
  | cons c cs ih =>
    intro tv
    rw [resolveBoxes_cons]
    constructor
    · rcases (ih (resolveOne c tv)).1 with h | h
      · rw [h]; exact (resolveOne_vel c tv).1
      · exact Or.inr h
    · rcases (ih (resolveOne c tv)).2 with h | h
      · rw [h]; exact (resolveOne_vel c tv).2
      · exact Or.inr h

/-- A candidate inside no collider passes the loop unchanged. -/
theorem resolveBoxes_no_hit {α : Type} [LinearOrderedField α] (cs : List (Collider α)) :
    ∀ tv : Vec3 α × Vec3 α, (∀ c ∈ cs, ¬ intersectsBox tv.1 c) → resolveBoxes cs tv = tv := by
  induction cs with
  | nil => intro tv _; rfl
  | cons c cs ih =>
    intro tv h
    rw [resolveBoxes_cons, resolveOne_miss c tv (h c (List.mem_cons_self c cs))]
    exact ih tv fun d hd => h d (List.mem_cons_of_mem c hd)

/-- All six scene colliders have box tops, sides and in particular their
z-extents strictly below z = 6, so any point with z at least 6 is inside
none of them. -/
theorem sceneColliders_safe (t : Vec3 ℝ) (hz : 6 ≤ t.z) :
    ∀ c ∈ sceneColliders, ¬ intersectsBox t c := by
  intro c hc
  simp only [sceneColliders, List.mem_cons, List.not_mem_nil, or_false] at hc
  rcases hc with rfl | rfl | rfl | rfl | rfl | rfl <;>
    · rintro ⟨-, -, -, -, -, h⟩
      simp only [colliderMax] at h
      norm_num at h
      linarith

/-- A frame with the gate engaged, written out. -/
theorem frame_locked (cs : List (Collider ℝ)) (q : Quat) (k : MovementKeys)
    (δ : ℝ) (s : PlayerState) :
    frame cs q k δ true s =
      ⟨(resolveCollisions cs (frameCandidate q k δ s) (frameVel q k δ s)).1,
       (resolveCollisions cs (frameCandidate q k δ s) (frameVel q k δ s)).2.1,
       (resolveCollisions cs (frameCandidate q k δ s) (frameVel q k δ s)).2.2,
       (resolveCollisions cs (frameCandidate q k δ s) (frameVel q k δ s)).1⟩ := rfl

/-- resolveCollisions when the candidate is below the floor: the loop
output is clamped to the floor height, vertical velocity is zeroed and
grounded is set. -/
theorem resolveCollisions_of_lt {α : Type} [LinearOrderedField α]
    (cs : List (Collider α)) (t v : Vec3 α) (h : t.y < floorHeight α) :
    resolveCollisions cs t v =
      (⟨(resolveBoxes cs (t, v)).1.x, floorHeight α, (resolveBoxes cs (t, v)).1.z⟩,
       ⟨(resolveBoxes cs (t, v)).2.x, 0, (resolveBoxes cs (t, v)).2.z⟩, true) := by
  have hy := (resolveBoxes_y cs (t, v)).1
  unfold resolveCollisions floorClamp
  rw [hy, if_pos h]

/-- resolveCollisions when the candidate is at or above the floor: the
loop output passes through and grounded is cleared. -/
theorem resolveCollisions_of_ge {α : Type} [LinearOrderedField α]
    (cs : List (Collider α)) (t v : Vec3 α) (h : floorHeight α ≤ t.y) :
    resolveCollisions cs t v =
      ((resolveBoxes cs (t, v)).1, (resolveBoxes cs (t, v)).2, false) := by
  have hy := (resolveBoxes_y cs (t, v)).1
  unfold resolveCollisions floorClamp
  rw [hy, if_neg (not_lt.mpr h)]

/-- C8: with the pointer-lock gate disengaged the integrator returns
early: body position, velocity, the grounded flag and the camera position
are left exactly unchanged, for every collider list, camera orientation,
input flag combination and delta. -/
theorem gate_off_frame_unchanged (cs : List (Collider ℝ)) (q : Quat)
    (k : MovementKeys) (δ : ℝ) (s : PlayerState) :
    frame cs q k δ false s = s := rfl

/-- C1: on every gate-engaged frame with non-negative delta the committed
position has y at least the floor value 1.6; after the frame grounded
holds exactly when the frame's candidate y was strictly below 1.6, and in
that case vertical velocity was zeroed by the clamp. -/
theorem frame_floor_invariant (cs : List (Collider ℝ)) (q : Quat)
    (k : MovementKeys) (δ : ℝ) (s : PlayerState) (_hδ : 0 ≤ δ) :
    floorHeight ℝ ≤ (frame cs q k δ true s).position.y ∧
    ((frame cs q k δ true s).grounded = true ↔
      (frameCandidate q k δ s).y < floorHeight ℝ) ∧
    ((frameCandidate q k δ s).y < floorHeight ℝ →
      (frame cs q k δ true s).velocity.y = 0) := by
  rw [frame_locked]
  rcases lt_or_le (frameCandidate q k δ s).y (floorHeight ℝ) with h | h
  · rw [resolveCollisions_of_lt cs _ _ h]
    refine ⟨le_refl _, ?_, ?_⟩ <;> simp [h]
  · rw [resolveCollisions_of_ge cs _ _ h]
    have hy := (resolveBoxes_y cs ((frameCandidate q k δ s), (frameVel q k δ s))).1
    refine ⟨?_, ?_, ?_⟩
    · simpa [hy] using h
    · simp [not_lt.mpr h]
    · intro hc; exact absurd hc (not_lt.mpr h)

/-- Witness for C1 at a concrete input: delta 0 from the initial state
with no keys and no colliders. -/
theorem frame_floor_invariant_witness :
    (0 : ℝ) ≤ 0 ∧ floorHeight ℝ ≤ (frame [] qIdentity noKeys 0 true initialState).position.y :=
  ⟨le_refl 0, (frame_floor_invariant [] qIdentity noKeys 0 initialState (le_refl 0)).1⟩

/-- A body at rest exactly on the floor, grounded, camera in sync: the
state one damping-free frame after the initial spawn state. -/
noncomputable def groundedRest : PlayerState := ⟨⟨0, 8/5, 6⟩, ⟨0, 0, 0⟩, true, ⟨0, 8/5, 6⟩⟩

/-- A body at rest in the air at y = 10, away from every collider. -/
noncomputable def stateAbove : PlayerState := ⟨⟨0, 10, 0⟩, ⟨0, 0, 0⟩, false, ⟨0, 0, 0⟩⟩

/-- C2 counterexample: a delta = 0 frame with the gate engaged is not a
no-op.  From a grounded body at rest on the floor with no keys held, the
frame recomputes grounded from the unchanged candidate y = 1.6, which is
not strictly below the floor, so grounded flips from true to false. -/
theorem zero_delta_not_noop :
    groundedRest.grounded = true ∧
    (frame sceneColliders qIdentity noKeys 0 true groundedRest).grounded = false := by
  refine ⟨rfl, ?_⟩
  have hv : frameVel qIdentity noKeys 0 groundedRest = ⟨0, 0, 0⟩ := by
    norm_num [frameVel, jumpVel, gravityVel, steerVel, dampedVel, moveXVal, moveZVal,
      noKeys, groundedRest]
  have hcand : frameCandidate qIdentity noKeys 0 groundedRest = ⟨0, 8/5, 6⟩ := by
    norm_num [frameCandidate, hv, groundedRest]
  rw [frame_locked, hcand, hv,
    resolveCollisions_of_ge _ _ _ (by norm_num [floorHeight]),
    resolveBoxes_no_hit _ _ (fun c hc => sceneColliders_safe _ (by norm_num) c hc)]

/-- C2 amended: with delta = 0, the gate engaged, no input flags held, the
body at or above the floor and inside no collider, the frame preserves
position and velocity and writes the position to the camera, but grounded
is recomputed to false rather than preserved. -/
theorem zero_delta_no_keys_frame (cs : List (Collider ℝ)) (q : Quat) (s : PlayerState)
    (h1 : floorHeight ℝ ≤ s.position.y)
    (h2 : ∀ c ∈ cs, ¬ intersectsBox s.position c) :
    frame cs q noKeys 0 true s = ⟨s.position, s.velocity, false, s.position⟩ := by
  have hv : frameVel q noKeys 0 s = s.velocity := by
    norm_num [frameVel, jumpVel, gravityVel, steerVel, dampedVel, moveXVal, moveZVal, noKeys]
  have hcand : frameCandidate q noKeys 0 s = s.position := by
    simp [frameCandidate, hv]
  rw [frame_locked, hcand, hv, resolveCollisions_of_ge _ _ _ h1,
    resolveBoxes_no_hit _ _ h2]

/-- Witness for the amended C2 at a concrete input: the initial state,
no colliders. -/
theorem zero_delta_no_keys_frame_witness :
    frame [] qIdentity noKeys 0 true initialState =
      ⟨initialState.position, initialState.velocity, false, initialState.position⟩ :=
  zero_delta_no_keys_frame [] qIdentity initialState
    (by norm_num [floorHeight, initialState]) (by simp)

/-- C7 counterexample: no delta clamp exists.  A gravity-only frame from
rest at y = 10 commits y = 9.875 at delta = 1/20 but y = 1.6 (floor
clamped after falling 50 m in one step) at delta = 1: the output for a
delta above 1/20 differs from the output at 1/20. -/
theorem delta_unclamped_outputs_differ :
    (frame [] qIdentity noKeys (1/20) true stateAbove).position.y = 79/8 ∧
    (frame [] qIdentity noKeys 1 true stateAbove).position.y = 8/5 ∧
    (79 / 8 : ℝ) ≠ 8 / 5 := by
  refine ⟨?_, ?_, by norm_num⟩ <;>
    norm_num [stateAbove, frame, frameVel, frameCandidate, jumpVel, gravityVel, steerVel,
      dampedVel, moveXVal, moveZVal, noKeys, resolveCollisions, resolveBoxes, floorClamp,
      floorHeight]

/-- C7 amended: the integrator uses the raw delta with no cap.  In the
gravity-only fall from stateAbove the committed height is exactly
10 - 50 delta^2 for every non-negative delta that keeps the candidate
above the floor (in particular throughout (0, 0.4], far past 1/20), so
the output keeps varying with delta instead of saturating at a clamp. -/
theorem delta_unclamped_gravity (δ : ℝ) (_h0 : 0 ≤ δ)
    (h1 : floorHeight ℝ ≤ 10 - 50 * δ ^ 2) :
    (frame [] qIdentity noKeys δ true stateAbove).position.y = 10 - 50 * δ ^ 2 ∧
    (frame [] qIdentity noKeys δ true stateAbove).velocity.y = -(50 * δ) := by
  have hv : frameVel qIdentity noKeys δ stateAbove = ⟨0, -(50 * δ), 0⟩ := by
    norm_num [frameVel, jumpVel, gravityVel, steerVel, dampedVel, moveXVal, moveZVal,
      noKeys, stateAbove]
  have hcand : frameCandidate qIdentity noKeys δ stateAbove = ⟨0, 10 - 50 * δ ^ 2, 0⟩ := by
    unfold frameCandidate
    rw [hv]
    simp only [stateAbove, Vec3.mk.injEq]
    refine ⟨by ring, by ring, by ring⟩
  rw [frame_locked, hcand, hv, resolveCollisions_of_ge _ _ _ (by simpa using h1),
    resolveBoxes_nil]
  exact ⟨rfl, rfl⟩

/-- Witness for the amended C7 at delta = 1/10: the fall commits
y = 10 - 50/100 = 9.5. -/
theorem delta_unclamped_gravity_witness :
    (frame [] qIdentity noKeys (1/10) true stateAbove).position.y = 10 - 50 * (1/10 : ℝ) ^ 2 :=
  (delta_unclamped_gravity (1/10) (by norm_num) (by norm_num [floorHeight])).1

/-- C10: the box-collider loop never changes candidate y or vertical
velocity; only the floor clamp does, so a frame can end grounded only
with the body at the fixed floor height 1.6 — a collider top is never a
resting surface. -/
theorem boxes_never_vertical (cs : List (Collider ℝ)) (t v : Vec3 ℝ) (q : Quat)
    (k : MovementKeys) (δ : ℝ) (s : PlayerState) :
    (resolveBoxes cs (t, v)).1.y = t.y ∧ (resolveBoxes cs (t, v)).2.y = v.y ∧
    ((frame cs q k δ true s).grounded = true →
      (frame cs q k δ true s).position.y = floorHeight ℝ) := by
  refine ⟨(resolveBoxes_y cs (t, v)).1, (resolveBoxes_y cs (t, v)).2, ?_⟩
  rw [frame_locked]
  rcases lt_or_le (frameCandidate q k δ s).y (floorHeight ℝ) with h | h
  · rw [resolveCollisions_of_lt cs _ _ h]
    exact fun _ => rfl
  · rw [resolveCollisions_of_ge cs _ _ h]
    intro hg
    exact absurd hg (by simp)

/-- Witness for C10 at a concrete input: a one-second fall from
stateAbove ends grounded, and the theorem places the body exactly at the
floor height. -/
theorem boxes_never_vertical_witness :
    (frame [] qIdentity noKeys 1 true stateAbove).position.y = floorHeight ℝ :=
  (boxes_never_vertical [] ⟨0, 0, 0⟩ ⟨0, 0, 0⟩ qIdentity noKeys 1 stateAbove).2.2
    (by norm_num [stateAbove, frame, frameVel, frameCandidate, jumpVel, gravityVel,
      steerVel, dampedVel, moveXVal, moveZVal, noKeys, resolveCollisions, resolveBoxes,
      floorClamp, floorHeight])

/-- C4: for a single collider and a candidate the detection test reports
inside it, resolution moves the candidate along exactly one horizontal
axis, landing the point inflated by the capsule radius exactly on a face
(zero residual overlap along that axis), zeroes that axis's velocity
component only, and leaves the other horizontal components and both
vertical components of position and velocity unchanged. -/
theorem single_box_resolution (α : Type) [LinearOrderedField α] (c : Collider α)
    (t v : Vec3 α) (h : intersectsBox t c) :
    (resolveBoxes [c] (t, v)).1.y = t.y ∧ (resolveBoxes [c] (t, v)).2.y = v.y ∧
    (((resolveBoxes [c] (t, v)).1.x - capsuleRadius α = (colliderMax c).x ∨
       (resolveBoxes [c] (t, v)).1.x + capsuleRadius α = (colliderMin c).x) ∧
      (resolveBoxes [c] (t, v)).1.x ≠ t.x ∧ (resolveBoxes [c] (t, v)).1.z = t.z ∧
      (resolveBoxes [c] (t, v)).2.x = 0 ∧ (resolveBoxes [c] (t, v)).2.z = v.z ∨
     ((resolveBoxes [c] (t, v)).1.z - capsuleRadius α = (colliderMax c).z ∨
       (resolveBoxes [c] (t, v)).1.z + capsuleRadius α = (colliderMin c).z) ∧
      (resolveBoxes [c] (t, v)).1.z ≠ t.z ∧ (resolveBoxes [c] (t, v)).1.x = t.x ∧
      (resolveBoxes [c] (t, v)).2.z = 0 ∧ (resolveBoxes [c] (t, v)).2.x = v.x) := by
  have hb : resolveBoxes [c] (t, v) = resolveOne c (t, v) := rfl
  obtain ⟨h1, h2, h3, h4, h5, h6⟩ := h
  have hr : (0 : α) < capsuleRadius α := by norm_num [capsuleRadius]
  have hh : (0 : α) < capsuleHeight α := by norm_num [capsuleHeight]
  have hslab : (t, v).1.y - capsuleRadius α < (colliderMax c).y ∧
      (t, v).1.y + capsuleHeight α > (colliderMin c).y :=
    ⟨by simpa using by linarith, by simpa using by linarith⟩
  rw [hb]
  unfold resolveOne
  rw [if_pos (show intersectsBox (t, v).1 c from ⟨h1, h2, h3, h4, h5, h6⟩), if_pos hslab]
  by_cases hd : depthX c (t, v).1 < depthZ c (t, v).1
  · rw [if_pos hd]
    refine ⟨rfl, rfl, Or.inl ⟨?_, ?_, rfl, rfl, rfl⟩⟩ <;>
      by_cases hsx : (t, v).1.x > c.position.x
    · rw [if_pos hsx]
      have hdx : depthX c t = (colliderMax c).x - (t.x - capsuleRadius α) := by
        unfold depthX
        apply min_eq_left
        simp only [colliderMin, colliderMax] at *
        linarith
      left
      rw [show depthX c (t, v).1 = depthX c t from rfl, hdx]
      ring
    · rw [if_neg hsx]
      have hdx : depthX c t = t.x + capsuleRadius α - (colliderMin c).x := by
        unfold depthX
        apply min_eq_right
        simp only [colliderMin, colliderMax] at *
        push_neg at hsx
        linarith
      right
      rw [show depthX c (t, v).1 = depthX c t from rfl, hdx]
      ring
    · rw [if_pos hsx]
      have hdpos : 0 < depthX c t := by
        unfold depthX
        simp only [colliderMin, colliderMax, lt_min_iff] at *
        constructor <;> linarith
      intro heq
      have : t.x + depthX c t = t.x := heq
      linarith
    · rw [if_neg hsx]
      have hdpos : 0 < depthX c t := by
        unfold depthX
        simp only [colliderMin, colliderMax, lt_min_iff] at *
        constructor <;> linarith
      intro heq
      have : t.x + -(depthX c t) = t.x := heq
      linarith
  · rw [if_neg hd]
    refine ⟨rfl, rfl, Or.inr ⟨?_, ?_, rfl, rfl, rfl⟩⟩ <;>
      by_cases hsz : (t, v).1.z > c.position.z
    · rw [if_pos hsz]
      have hdz : depthZ c t = (colliderMax c).z - (t.z - capsuleRadius α) := by
        unfold depthZ
        apply min_eq_left
        simp only [colliderMin, colliderMax] at *
        linarith
      left
      rw [show depthZ c (t, v).1 = depthZ c t from rfl, hdz]
      ring
    · rw [if_neg hsz]
      have hdz : depthZ c t = t.z + capsuleRadius α - (colliderMin c).z := by
        unfold depthZ
        apply min_eq_right
        simp only [colliderMin, colliderMax] at *
        push_neg at hsz
        linarith
      right
      rw [show depthZ c (t, v).1 = depthZ c t from rfl, hdz]
      ring
    · rw [if_pos hsz]
      have hdpos : 0 < depthZ c t := by
        unfold depthZ
        simp only [colliderMin, colliderMax, lt_min_iff] at *
        constructor <;> linarith
      intro heq
      have : t.z + depthZ c t = t.z := heq
      linarith
    · rw [if_neg hsz]
      have hdpos : 0 < depthZ c t := by
        unfold depthZ
        simp only [colliderMin, colliderMax, lt_min_iff] at *
        constructor <;> linarith
      intro heq
      have : t.z + -(depthZ c t) = t.z := heq
      linarith

/-- Witness for C4 at a concrete rational input: a point inside the unit
box around the origin keeps its candidate y through resolution. -/
theorem single_box_resolution_witness :
    (resolveBoxes [(⟨⟨0, 0, 0⟩, ⟨2, 2, 2⟩⟩ : Collider ℚ)] (⟨1/2, 0, 1/10⟩, ⟨5, 6, 7⟩)).1.y
      = (⟨1/2, 0, 1/10⟩ : Vec3 ℚ).y :=
  (single_box_resolution ℚ ⟨⟨0, 0, 0⟩, ⟨2, 2, 2⟩⟩ ⟨1/2, 0, 1/10⟩ ⟨5, 6, 7⟩
    (by norm_num [intersectsBox, colliderMin, colliderMax])).1

/-- C5 counterexample: on equal overlap depths the code pushes along Z,
not X.  At a symmetric candidate inside the unit box the two depths are
equal, yet resolution leaves x and velocity.x alone (velocity.x stays 5)
and pushes z to the face while zeroing velocity.z. -/
theorem equal_depths_push_z :
    depthX (⟨⟨0, 0, 0⟩, ⟨2, 2, 2⟩⟩ : Collider ℚ) ⟨4/5, 0, 4/5⟩ =
      depthZ (⟨⟨0, 0, 0⟩, ⟨2, 2, 2⟩⟩ : Collider ℚ) ⟨4/5, 0, 4/5⟩ ∧
    (resolveBoxes [(⟨⟨0, 0, 0⟩, ⟨2, 2, 2⟩⟩ : Collider ℚ)] (⟨4/5, 0, 4/5⟩, ⟨5, 0, 7⟩)).1.x = 4/5 ∧
    (resolveBoxes [(⟨⟨0, 0, 0⟩, ⟨2, 2, 2⟩⟩ : Collider ℚ)] (⟨4/5, 0, 4/5⟩, ⟨5, 0, 7⟩)).2.x = 5 ∧
    (resolveBoxes [(⟨⟨0, 0, 0⟩, ⟨2, 2, 2⟩⟩ : Collider ℚ)] (⟨4/5, 0, 4/5⟩, ⟨5, 0, 7⟩)).1.z = 27/20 ∧
    (resolveBoxes [(⟨⟨0, 0, 0⟩, ⟨2, 2, 2⟩⟩ : Collider ℚ)] (⟨4/5, 0, 4/5⟩, ⟨5, 0, 7⟩)).2.z = 0 := by
  norm_num [resolveBoxes, resolveOne, intersectsBox, colliderMin, colliderMax,
    depthX, depthZ, capsuleRadius, capsuleHeight]

/-- C5 amended: the tie goes to Z.  When the detection test holds and the
two overlap depths are equal, the push is along the Z axis, away from the
collider center (positive sign exactly when the candidate z exceeds the
center z), and velocity.z is the component zeroed; X is pushed only when
its depth is strictly smaller. -/
theorem equal_depths_resolution (α : Type) [LinearOrderedField α] (c : Collider α)
    (t v : Vec3 α) (h : intersectsBox t c) (hd : depthX c t = depthZ c t) :
    resolveBoxes [c] (t, v) =
      (⟨t.x, t.y, t.z + (if t.z > c.position.z then depthZ c t else -(depthZ c t))⟩,
       ⟨v.x, v.y, 0⟩) := by
  have hb : resolveBoxes [c] (t, v) = resolveOne c (t, v) := rfl
  obtain ⟨h1, h2, h3, h4, h5, h6⟩ := h
  have hr : (0 : α) < capsuleRadius α := by norm_num [capsuleRadius]
  have hh : (0 : α) < capsuleHeight α := by norm_num [capsuleHeight]
  have hslab : (t, v).1.y - capsuleRadius α < (colliderMax c).y ∧
      (t, v).1.y + capsuleHeight α > (colliderMin c).y :=
    ⟨by simpa using by linarith, by simpa using by linarith⟩
  rw [hb]
  unfold resolveOne
  rw [if_pos (show intersectsBox (t, v).1 c from ⟨h1, h2, h3, h4, h5, h6⟩), if_pos hslab,
    if_neg (show ¬ depthX c (t, v).1 < depthZ c (t, v).1 from by
      rw [show depthX c (t, v).1 = depthX c t from rfl,
        show depthZ c (t, v).1 = depthZ c t from rfl, hd]
      exact lt_irrefl _)]

/-- Witness for the amended C5 at the symmetric rational input: the tie
is resolved by a Z push to the face at 1 + 0.35 = 27/20. -/
theorem equal_depths_resolution_witness :
    resolveBoxes [(⟨⟨0, 0, 0⟩, ⟨2, 2, 2⟩⟩ : Collider ℚ)] (⟨4/5, 0, 4/5⟩, ⟨1, 2, 3⟩) =
      (⟨4/5, 0, 27/20⟩, ⟨1, 2, 0⟩) := by
  rw [equal_depths_resolution ℚ ⟨⟨0, 0, 0⟩, ⟨2, 2, 2⟩⟩ ⟨4/5, 0, 4/5⟩ ⟨1, 2, 3⟩
    (by norm_num [intersectsBox, colliderMin, colliderMax])
    (by norm_num [depthX, depthZ, colliderMin, colliderMax, capsuleRadius])]
  norm_num [depthZ, colliderMin, colliderMax, capsuleRadius]

/-- C6 counterexample: detection carries no capsule margin.  The point
(6/5, 0, 0) is strictly outside the unit box yet within the capsule
radius 0.35 of its +X face; intersectsBox rejects it and resolution
leaves position and velocity untouched instead of pushing to the face. -/
theorem margin_point_not_detected :
    ¬ intersectsBox (⟨6/5, 0, 0⟩ : Vec3 ℚ) ⟨⟨0, 0, 0⟩, ⟨2, 2, 2⟩⟩ ∧
    (colliderMax (⟨⟨0, 0, 0⟩, ⟨2, 2, 2⟩⟩ : Collider ℚ)).x < 6/5 ∧
    (6/5 : ℚ) - capsuleRadius ℚ < (colliderMax (⟨⟨0, 0, 0⟩, ⟨2, 2, 2⟩⟩ : Collider ℚ)).x ∧
    resolveBoxes [(⟨⟨0, 0, 0⟩, ⟨2, 2, 2⟩⟩ : Collider ℚ)] (⟨6/5, 0, 0⟩, ⟨1, 2, 3⟩) =
      (⟨6/5, 0, 0⟩, ⟨1, 2, 3⟩) := by
  norm_num [resolveBoxes, resolveOne, intersectsBox, colliderMin, colliderMax, capsuleRadius]

/-- C6 amended: collision detection tests the raw candidate point
strictly inside the box with no inflation margin; any candidate the raw
test rejects — even one within the capsule radius of a face — passes the
collider loop completely unchanged.  The margin enters only the depth
computation used for the push once the raw point is already inside. -/
theorem detection_uses_raw_point (α : Type) [LinearOrderedField α] (c : Collider α)
    (t v : Vec3 α) (h : ¬ intersectsBox t c) : resolveBoxes [c] (t, v) = (t, v) :=
  resolveOne_miss c (t, v) h

/-- Witness for the amended C6 at a concrete rational input well outside
the box. -/
theorem detection_uses_raw_point_witness :
    resolveBoxes [(⟨⟨0, 0, 0⟩, ⟨2, 2, 2⟩⟩ : Collider ℚ)] (⟨3, 4, 5⟩, ⟨1, 2, 3⟩) =
      (⟨3, 4, 5⟩, ⟨1, 2, 3⟩) :=
  detection_uses_raw_point ℚ ⟨⟨0, 0, 0⟩, ⟨2, 2, 2⟩⟩ ⟨3, 4, 5⟩ ⟨1, 2, 3⟩
    (by norm_num [intersectsBox, colliderMin, colliderMax])

/-! ### Bounds on the per-frame damping factor exp(-1/15) -/

theorem d60_pos : 0 < d60 := Real.exp_pos _

theorem d60_lower : (14 / 15 : ℝ) ≤ d60 := by
  have h := Real.add_one_le_exp (-(4 * (1 / 60 : ℝ)))
  unfold d60
  linarith

theorem d60_upper : d60 ≤ 15 / 16 := by
  have h := Real.add_one_le_exp (4 * (1 / 60 : ℝ))
  have h2 : (16 / 15 : ℝ) ≤ Real.exp (4 * (1 / 60)) := by linarith
  unfold d60
  rw [Real.exp_neg]
  calc (Real.exp (4 * (1 / 60 : ℝ)))⁻¹ ≤ (16 / 15 : ℝ)⁻¹ :=
        inv_anti₀ (by norm_num) h2
    _ = 15 / 16 := by norm_num

/-! ### The scalar speed recurrence of a straight run -/

theorem speedStep_nonneg (cap s : ℝ) (hcap : 0 ≤ cap) (hs : 0 ≤ s) :
    0 ≤ speedStep cap s := by
  unfold speedStep
  split_ifs
  · exact hcap
  · nlinarith [d60_pos]

theorem speedStep_le (cap s : ℝ) : speedStep cap s ≤ cap ∨ speedStep cap s = s * d60 + 3 / 5 := by
  unfold speedStep
  split_ifs with h
  · exact Or.inl le_rfl
  · exact Or.inr rfl

theorem speedStep_le_six (s : ℝ) : speedStep 6 s ≤ 6 := by
  unfold speedStep
  split_ifs with h
  · exact le_rfl
  · linarith [not_lt.mp h]

theorem speedStep_six : speedStep 6 6 = 6 := by
  unfold speedStep
  rw [if_pos]
  nlinarith [d60_lower]

theorem speedStep_gain (s : ℝ) (hs : 0 ≤ s) (_h6 : s ≤ 6) :
    speedStep 6 s = 6 ∨ s + 1 / 5 ≤ speedStep 6 s := by
  unfold speedStep
  split_ifs with h
  · exact Or.inl rfl
  · right
    have hp : s * (14 / 15) ≤ s * d60 := mul_le_mul_of_nonneg_left d60_lower hs
    linarith

theorem speedStep12_grow (s : ℝ) (hs : 0 ≤ s) (hlow : s < 13 / 2) :
    s + 1 / 6 ≤ speedStep 12 s ∨ speedStep 12 s = 12 := by
  unfold speedStep
  split_ifs with h
  · exact Or.inr rfl
  · left
    have hp : s * (14 / 15) ≤ s * d60 := mul_le_mul_of_nonneg_left d60_lower hs
    linarith

theorem speedStep12_keep (s : ℝ) (hs : 13 / 2 ≤ s) : 13 / 2 ≤ speedStep 12 s := by
  unfold speedStep
  split_ifs with h
  · norm_num
  · have hp : (14 / 15 : ℝ) * (13 / 2) ≤ d60 * s :=
      mul_le_mul d60_lower hs (by norm_num) (le_trans (by norm_num) d60_lower)
    nlinarith

/-- The speed clamp on a velocity with no x component: the z component is
capped at the target speed. -/
theorem clampVel_z (k : MovementKeys) (u : ℝ) (hu : 0 ≤ u) :
    clampVel k ⟨0, 0, u⟩ = ⟨0, 0, if u > targetSpeed k then targetSpeed k else u⟩ := by
  unfold clampVel
  have hsqrt : Real.sqrt ((0:ℝ) ^ 2 + u ^ 2) = u := by
    rw [show (0:ℝ) ^ 2 + u ^ 2 = u ^ 2 by ring]
    exact Real.sqrt_sq hu
  simp only [hsqrt]
  split_ifs with h
  · have h0 : (0:ℝ) < targetSpeed k := by unfold targetSpeed; split_ifs <;> norm_num
    have hne : u ≠ 0 := by nlinarith
    simp only [Vec3.mk.injEq]
    exact ⟨by ring, trivial, by field_simp⟩
  · rfl

/-- One gate-engaged frame of a straight forward run at delta 1/60 from a
body on the floor at x = 0 with z at least 6 (clear of every scene
collider) and a forward-only horizontal velocity: the body stays on the
floor, grounded, and the forward speed follows the scalar recurrence
speedStep with the sprint-selected cap. -/
theorem run_frame_eval (b : Bool) (z sp : ℝ) (g : Bool) (cam : Vec3 ℝ)
    (hz : 6 ≤ z) (hs : 0 ≤ sp) :
    frame sceneColliders qIdentity (runKeys b) (1/60) true ⟨⟨0, 8/5, z⟩, ⟨0, 0, sp⟩, g, cam⟩ =
      ⟨⟨0, 8/5, z + speedStep (if b then 12 else 6) sp * (1/60)⟩,
       ⟨0, 0, speedStep (if b then 12 else 6) sp⟩, true,
       ⟨0, 8/5, z + speedStep (if b then 12 else 6) sp * (1/60)⟩⟩ := by
  have hfront : frontVec qIdentity = ⟨0, 0, -1⟩ := by
    simp [frontVec, applyQuaternion, qIdentity, normalizeV, vecLength, lengthSq]
  have hside : sideVec qIdentity = ⟨1, 0, 0⟩ := by
    simp [sideVec, applyQuaternion, qIdentity, normalizeV, vecLength, lengthSq]
  have hmz : moveZVal (runKeys b) = -1 := by norm_num [moveZVal, runKeys]
  have hmx : moveXVal (runKeys b) = 0 := by norm_num [moveXVal, runKeys]
  have hmd : moveDir qIdentity (runKeys b) = ⟨0, 0, 1⟩ := by
    simp [moveDir, hfront, hside, hmz, hmx]
  have hdamp : dampedVel (1/60) ⟨0, 0, sp⟩ = ⟨0, 0, sp * d60⟩ := by
    simp [dampedVel, d60]
  have hu : 0 ≤ sp * d60 + 3/5 := by nlinarith [d60_pos]
  have haccel : accelVel qIdentity (runKeys b) (1/60) ⟨0, 0, sp * d60⟩ =
      ⟨0, 0, sp * d60 + 3/5⟩ := by
    unfold accelVel
    rw [hmd]
    rw [if_pos (by norm_num [lengthSq])]
    simp [normalizeV, vecLength, lengthSq]
    norm_num
  have hts : targetSpeed (runKeys b) = if b then 12 else 6 := rfl
  have hclamp : clampVel (runKeys b) ⟨0, 0, sp * d60 + 3/5⟩ =
      ⟨0, 0, speedStep (if b then 12 else 6) sp⟩ := by
    rw [clampVel_z _ _ hu]
    unfold speedStep
    rw [hts]
  have hsteer : steerVel qIdentity (runKeys b) (1/60) ⟨0, 0, sp * d60⟩ =
      ⟨0, 0, speedStep (if b then 12 else 6) sp⟩ := by
    unfold steerVel
    rw [if_pos (Or.inr (by rw [hmz]; norm_num)), haccel, hclamp]
  have hvel : frameVel qIdentity (runKeys b) (1/60) ⟨⟨0, 8/5, z⟩, ⟨0, 0, sp⟩, g, cam⟩ =
      ⟨0, -5/6, speedStep (if b then 12 else 6) sp⟩ := by
    unfold frameVel
    simp only [hdamp, hsteer]
    unfold gravityVel jumpVel
    norm_num [runKeys]
  have hspn : 0 ≤ speedStep (if b then 12 else 6) sp :=
    speedStep_nonneg _ sp (by rcases b with _ | _ <;> norm_num) hs
  have hcand : frameCandidate qIdentity (runKeys b) (1/60) ⟨⟨0, 8/5, z⟩, ⟨0, 0, sp⟩, g, cam⟩ =
      ⟨0, 571/360, z + speedStep (if b then 12 else 6) sp * (1/60)⟩ := by
    unfold frameCandidate
    rw [hvel]
    simp only [Vec3.mk.injEq]
    norm_num
  rw [frame_locked, hcand, hvel,
    resolveCollisions_of_lt _ _ _ (by norm_num [floorHeight]),
    resolveBoxes_no_hit _ _ (fun c hc => sceneColliders_safe _ (by simp; nlinarith) c hc)]
  norm_num [floorHeight]

/-- One gate-engaged frame with no keys held at delta 1/60 from a body on
the floor at x = 0 with z at least 6: only damping acts on the forward
speed and the body stays grounded on the floor. -/
theorem idle_frame_eval (z sp : ℝ) (g : Bool) (cam : Vec3 ℝ)
    (hz : 6 ≤ z) (hs : 0 ≤ sp) :
    frame sceneColliders qIdentity noKeys (1/60) true ⟨⟨0, 8/5, z⟩, ⟨0, 0, sp⟩, g, cam⟩ =
      ⟨⟨0, 8/5, z + sp * d60 * (1/60)⟩, ⟨0, 0, sp * d60⟩, true,
       ⟨0, 8/5, z + sp * d60 * (1/60)⟩⟩ := by
  have hdamp : dampedVel (1/60) ⟨0, 0, sp⟩ = ⟨0, 0, sp * d60⟩ := by
    simp [dampedVel, d60]
  have hsteer : steerVel qIdentity noKeys (1/60) ⟨0, 0, sp * d60⟩ = ⟨0, 0, sp * d60⟩ := by
    unfold steerVel
    rw [if_neg]
    simp [moveXVal, moveZVal, noKeys]
  have hvel : frameVel qIdentity noKeys (1/60) ⟨⟨0, 8/5, z⟩, ⟨0, 0, sp⟩, g, cam⟩ =
      ⟨0, -5/6, sp * d60⟩ := by
    unfold frameVel
    simp only [hdamp, hsteer]
    unfold gravityVel jumpVel
    norm_num [noKeys]
  have hspn : 0 ≤ sp * d60 := mul_nonneg hs d60_pos.le
  have hcand : frameCandidate qIdentity noKeys (1/60) ⟨⟨0, 8/5, z⟩, ⟨0, 0, sp⟩, g, cam⟩ =
      ⟨0, 571/360, z + sp * d60 * (1/60)⟩ := by
    unfold frameCandidate
    rw [hvel]
    simp only [Vec3.mk.injEq]
    norm_num
  rw [frame_locked, hcand, hvel,
    resolveCollisions_of_lt _ _ _ (by norm_num [floorHeight]),
    resolveBoxes_no_hit _ _ (fun c hc => sceneColliders_safe _ (by simp; nlinarith) c hc)]
  norm_num [floorHeight]

/-- The walk run invariant: after n forward-only frames at 1/60 s the
body is on the floor at x = 0 with z at least 6, the forward speed is
within the walk cap 6, and the speed is either exactly 6 already or has
grown by at least 1/5 per frame. -/
theorem walk_iterate (n : ℕ) : ∃ z sp : ℝ, ∃ g : Bool, ∃ cam : Vec3 ℝ,
    (frame sceneColliders qIdentity (runKeys false) (1/60) true)^[n] initialState =
      ⟨⟨0, 8/5, z⟩, ⟨0, 0, sp⟩, g, cam⟩ ∧ 6 ≤ z ∧ 0 ≤ sp ∧ sp ≤ 6 ∧
      (sp = 6 ∨ (n : ℝ) / 5 ≤ sp) := by
  induction n with
  | zero =>
    exact ⟨6, 0, false, ⟨0, 8/5, 6⟩, rfl, le_refl 6, le_refl 0, by norm_num, Or.inr (by norm_num)⟩
  | succ n ih =>
    obtain ⟨z, sp, g, cam, heq, hz, hs, h6, hd⟩ := ih
    rw [Function.iterate_succ_apply', heq,
      run_frame_eval false z sp g cam hz hs]
    have hstep : speedStep (if false then 12 else 6) sp = speedStep 6 sp := by norm_num
    rw [hstep]
    have hs' : 0 ≤ speedStep 6 sp := speedStep_nonneg 6 sp (by norm_num) hs
    refine ⟨z + speedStep 6 sp * (1/60), speedStep 6 sp, true, _, rfl, by nlinarith, hs',
      speedStep_le_six sp, ?_⟩
    rcases hd with hd | hd
    · left
      rw [hd]
      exact speedStep_six
    · rcases speedStep_gain sp hs h6 with h | h
      · exact Or.inl h
      · right
        push_cast
        linarith

/-- C9: from rest with only forward held (sprint off), 60 frames at a
fixed 1/60 s delta reach a horizontal speed exactly equal to the walk cap
6, and after every frame of the run the horizontal speed is at most 6. -/
theorem walk_one_second_reaches_cap :
    horizSpeed ((frame sceneColliders qIdentity (runKeys false) (1/60) true)^[60]
      initialState).velocity = 6 ∧
    ∀ n : ℕ, horizSpeed ((frame sceneColliders qIdentity (runKeys false) (1/60) true)^[n]
      initialState).velocity ≤ 6 := by
  constructor
  · obtain ⟨z, sp, g, cam, heq, hz, hs, h6, hd⟩ := walk_iterate 60
    have hsp : sp = 6 := by
      rcases hd with hd | hd
      · exact hd
      · norm_num at hd
        linarith
    rw [heq, hsp]
    show Real.sqrt ((0:ℝ) ^ 2 + 6 ^ 2) = 6
    rw [show (0:ℝ) ^ 2 + 6 ^ 2 = 6 ^ 2 by ring]
    exact Real.sqrt_sq (by norm_num)
  · intro n
    obtain ⟨z, sp, g, cam, heq, hz, hs, h6, hd⟩ := walk_iterate n
    rw [heq]
    show Real.sqrt ((0:ℝ) ^ 2 + sp ^ 2) ≤ 6
    rw [show (0:ℝ) ^ 2 + sp ^ 2 = sp ^ 2 by ring, Real.sqrt_sq hs]
    exact h6

/-- The sprint run invariant: after n sprint+forward frames at 1/60 s the
body is on the floor at x = 0 with z at least 6 and the forward speed is
at least min(13/2, n/6). -/
theorem sprint_iterate (n : ℕ) : ∃ z sp : ℝ, ∃ g : Bool, ∃ cam : Vec3 ℝ,
    (frame sceneColliders qIdentity (runKeys true) (1/60) true)^[n] initialState =
      ⟨⟨0, 8/5, z⟩, ⟨0, 0, sp⟩, g, cam⟩ ∧ 6 ≤ z ∧ 0 ≤ sp ∧
      min (13/2) ((n : ℝ) / 6) ≤ sp := by
  induction n with
  | zero =>
    refine ⟨6, 0, false, ⟨0, 8/5, 6⟩, rfl, le_refl 6, le_refl 0, ?_⟩
    norm_num
  | succ n ih =>
    obtain ⟨z, sp, g, cam, heq, hz, hs, hmin⟩ := ih
    rw [Function.iterate_succ_apply', heq,
      run_frame_eval true z sp g cam hz hs]
    have hstep : speedStep (if true then 12 else 6) sp = speedStep 12 sp := by norm_num
    rw [hstep]
    have hs' : 0 ≤ speedStep 12 sp := speedStep_nonneg 12 sp (by norm_num) hs
    refine ⟨z + speedStep 12 sp * (1/60), speedStep 12 sp, true, _, rfl, by nlinarith, hs', ?_⟩
    rcases le_or_lt (13/2 : ℝ) sp with hbig | hsmall
    · exact le_trans (min_le_left _ _) (speedStep12_keep sp hbig)
    · rcases speedStep12_grow sp hs hsmall with h | h
      · have hmin' : ((n : ℝ)) / 6 ≤ sp := by
          rcases min_cases (13/2 : ℝ) ((n : ℝ) / 6) with ⟨hm, hle⟩ | ⟨hm, hle⟩
          · rw [hm] at hmin; linarith
          · rw [hm] at hmin; exact hmin
        refine le_trans (min_le_right _ _) ?_
        push_cast
        linarith
      · rw [h]
        exact le_trans (min_le_left _ _) (by norm_num)

/-- C3 counterexample: the speed caps hold only on frames with a
directional input.  After 40 sprint+forward frames (a reachable state
with forward speed at least 6.5) a single frame with no keys held and
sprint released only damps the speed by exp(-1/15), leaving the
horizontal speed strictly above the walk cap 6 on a frame where sprint is
not held. -/
theorem sprint_release_exceeds_walk_cap :
    noKeys.sprint = false ∧
    6 < horizSpeed (frame sceneColliders qIdentity noKeys (1/60) true
      ((frame sceneColliders qIdentity (runKeys true) (1/60) true)^[40]
        initialState)).velocity := by
  refine ⟨rfl, ?_⟩
  obtain ⟨z, sp, g, cam, heq, hz, hs, hmin⟩ := sprint_iterate 40
  have hsp : (13/2 : ℝ) ≤ sp := by
    have : min (13/2 : ℝ) ((40 : ℕ) / 6 : ℝ) = 13/2 := by norm_num
    rw [this] at hmin
    exact hmin
  rw [heq, idle_frame_eval z sp g cam hz hs]
  show 6 < Real.sqrt ((0:ℝ) ^ 2 + (sp * d60) ^ 2)
  have hpd : 0 ≤ sp * d60 := mul_nonneg hs d60_pos.le
  rw [show (0:ℝ) ^ 2 + (sp * d60) ^ 2 = (sp * d60) ^ 2 by ring, Real.sqrt_sq hpd]
  nlinarith [d60_lower]

/-- The target speed is positive. -/
theorem targetSpeed_pos (k : MovementKeys) : 0 < targetSpeed k := by
  unfold targetSpeed
  split_ifs <;> norm_num

/-- After the clamp step the horizontal speed is at most the target. -/
theorem clampVel_speed_le (k : MovementKeys) (v : Vec3 ℝ) :
    horizSpeed (clampVel k v) ≤ targetSpeed k := by
  unfold clampVel horizSpeed
  dsimp only
  split_ifs with h
  · have ht := targetSpeed_pos k
    have hu0 : (0:ℝ) < Real.sqrt (v.x ^ 2 + v.z ^ 2) := lt_trans ht h
    have hf : (0:ℝ) ≤ targetSpeed k / Real.sqrt (v.x ^ 2 + v.z ^ 2) :=
      div_nonneg ht.le hu0.le
    have : (v.x * (targetSpeed k / Real.sqrt (v.x ^ 2 + v.z ^ 2))) ^ 2 +
        (v.z * (targetSpeed k / Real.sqrt (v.x ^ 2 + v.z ^ 2))) ^ 2 =
        (targetSpeed k / Real.sqrt (v.x ^ 2 + v.z ^ 2)) ^ 2 * (v.x ^ 2 + v.z ^ 2) := by
      ring
    rw [this, Real.sqrt_mul (sq_nonneg _), Real.sqrt_sq hf]
    apply le_of_eq
    field_simp
  · exact le_of_not_lt h

/-- Componentwise keep-or-zero only shrinks the horizontal speed. -/
theorem horizSpeed_le_of_keep_or_zero (v w : Vec3 ℝ)
    (hx : w.x = v.x ∨ w.x = 0) (hz : w.z = v.z ∨ w.z = 0) :
    horizSpeed w ≤ horizSpeed v := by
  unfold horizSpeed
  apply Real.sqrt_le_sqrt
  have h1 : w.x ^ 2 ≤ v.x ^ 2 := by
    rcases hx with h | h
    · rw [h]
    · rw [h]; simpa using sq_nonneg v.x
  have h2 : w.z ^ 2 ≤ v.z ^ 2 := by
    rcases hz with h | h
    · rw [h]
    · rw [h]; simpa using sq_nonneg v.z
  linarith

/-- Horizontal damping with non-negative delta only shrinks the speed. -/
theorem dampedVel_speed_le (δ : ℝ) (v : Vec3 ℝ) (hδ : 0 ≤ δ) :
    horizSpeed (dampedVel δ v) ≤ horizSpeed v := by
  unfold dampedVel horizSpeed
  apply Real.sqrt_le_sqrt
  have he0 : 0 < Real.exp (-(4 * δ)) := Real.exp_pos _
  have he1 : Real.exp (-(4 * δ)) ≤ 1 := by
    rw [show (1:ℝ) = Real.exp 0 from (Real.exp_zero).symm]
    exact Real.exp_le_exp.mpr (by linarith)
  simp only
  have he2 : Real.exp (-(4 * δ)) ^ 2 ≤ 1 := by nlinarith
  have hx2 : (v.x * Real.exp (-(4 * δ))) ^ 2 ≤ v.x ^ 2 := by nlinarith [sq_nonneg v.x]
  have hz2 : (v.z * Real.exp (-(4 * δ))) ^ 2 ≤ v.z ^ 2 := by nlinarith [sq_nonneg v.z]
  linarith

/-- The gravity and jump steps keep both horizontal velocity components. -/
theorem frameVel_xz (q : Quat) (k : MovementKeys) (δ : ℝ) (s : PlayerState) :
    (frameVel q k δ s).x = (steerVel q k δ (dampedVel δ s.velocity)).x ∧
    (frameVel q k δ s).z = (steerVel q k δ (dampedVel δ s.velocity)).z := by
  unfold frameVel gravityVel jumpVel
  split_ifs <;> simp

/-- The committed velocity's horizontal components are the pipeline's,
each possibly zeroed by a collider; the floor clamp keeps both. -/
theorem frame_vel_keep_or_zero (cs : List (Collider ℝ)) (t v : Vec3 ℝ) :
    (((resolveCollisions cs t v).2.1.x = v.x ∨ (resolveCollisions cs t v).2.1.x = 0) ∧
     ((resolveCollisions cs t v).2.1.z = v.z ∨ (resolveCollisions cs t v).2.1.z = 0)) := by
  have hb := resolveBoxes_vel cs (t, v)
  unfold resolveCollisions floorClamp
  split_ifs <;> simpa using hb

/-- C3 amended: the sprint/walk cap binds only on frames with a
directional input held.  On such frames the committed horizontal speed is
at most targetSpeed (12 when sprint is held, 6 otherwise); on frames with
no directional input the clamp is skipped and the speed merely does not
increase (damping and collider zeroing only shrink it), so speed above
the walk cap can persist after sprint is released. -/
theorem frame_speed_caps (cs : List (Collider ℝ)) (q : Quat) (k : MovementKeys)
    (δ : ℝ) (s : PlayerState) (hδ : 0 ≤ δ) :
    (moveXVal k ≠ 0 ∨ moveZVal k ≠ 0 →
      horizSpeed (frame cs q k δ true s).velocity ≤ targetSpeed k) ∧
    (moveXVal k = 0 ∧ moveZVal k = 0 →
      horizSpeed (frame cs q k δ true s).velocity ≤ horizSpeed s.velocity) := by
  have hvel : (frame cs q k δ true s).velocity =
      (resolveCollisions cs (frameCandidate q k δ s) (frameVel q k δ s)).2.1 := by
    rw [frame_locked]
  have hkz := frame_vel_keep_or_zero cs (frameCandidate q k δ s) (frameVel q k δ s)
  have hle1 : horizSpeed (frame cs q k δ true s).velocity ≤
      horizSpeed (frameVel q k δ s) := by
    rw [hvel]
    exact horizSpeed_le_of_keep_or_zero _ _ hkz.1 hkz.2
  have hfs : horizSpeed (frameVel q k δ s) =
      horizSpeed (steerVel q k δ (dampedVel δ s.velocity)) := by
    unfold horizSpeed
    rw [(frameVel_xz q k δ s).1, (frameVel_xz q k δ s).2]
  constructor
  · intro hdir
    have hsteer : steerVel q k δ (dampedVel δ s.velocity) =
        clampVel k (accelVel q k δ (dampedVel δ s.velocity)) := by
      unfold steerVel
      rw [if_pos hdir]
    refine le_trans hle1 ?_
    rw [hfs, hsteer]
    exact clampVel_speed_le k _
  · intro hnone
    have hsteer : steerVel q k δ (dampedVel δ s.velocity) = dampedVel δ s.velocity := by
      unfold steerVel
      rw [if_neg]
      push_neg
      exact hnone
    refine le_trans hle1 ?_
    rw [hfs, hsteer]
    exact dampedVel_speed_le δ s.velocity hδ

/-- Witness for the amended C3 at a concrete input: a delta 0 frame with
forward held from the initial state obeys the walk cap. -/
theorem frame_speed_caps_witness :
    horizSpeed (frame [] qIdentity (runKeys false) 0 true initialState).velocity ≤
      targetSpeed (runKeys false) :=
  (frame_speed_caps [] qIdentity (runKeys false) 0 initialState (le_refl 0)).1
    (Or.inr (by norm_num [moveZVal, runKeys]))
